import Mathlib

/-!
Verification of the modweaver version-resolution and synchronization engine.

This file shallowly embeds the data model and the operations of the
modweaver repository (mod.py, config.py, provider.py, curse.py,
modrinth.py, main.py) as executable Lean definitions and proves, or
refutes, a collection of claims about them.

Modelling conventions:
- Python dicts that preserve insertion order are association lists
  (List (String × InstalledMod)) with update-in-place / append semantics.
- The file system is the list of paths that currently exist on disk.
- Stateful operations take and return a Sys value; a Python exception is
  an Except.error result paired with the state as mutated so far.
- Timestamps are naturals; machine 32-bit arithmetic in the hash is
  Nat arithmetic reduced modulo 2 ^ 32.
- InstalledMod in mod.py declares NO pinned dataclass field, while
  provider.py reads installed_mod.pinned.  We model the dynamic
  attribute dictionary entry with an Option Bool: none means the
  attribute is absent (so reading it raises AttributeError), some b
  means someone set it dynamically to b.  Every constructor appearing
  in the repository leaves it at none.
-/

/-- Python exception kinds raised by the embedded code.  The source raises
RuntimeError with distinct messages; each message (and each distinct
exception class) is mapped to one constructor. -/
inductive PyError where
  | assertionError
  | attributeError
  | keyError
  | alreadyInstalled
  | notInstalled
  | noCompatibleVersion
  | downloadFailed
  | notFound
  | unidentifiableFile
  | clientResponseError
deriving DecidableEq, Repr

/-- ModVersion dataclass from mod.py. -/
structure ModVersion where
  id : String
  modid : String
  version : String
  filename : String
  url : String
  date : Nat
  loaders : List String
  game_versions : List String
deriving DecidableEq, Repr

/-- InstalledMod dataclass from mod.py.  The dataclass declares the first
seven fields only; pinned models the dynamic attribute (see module
comment): none is the state every repository constructor produces. -/
structure InstalledMod where
  id : String
  name : String
  version_id : String
  installed_version : String
  installed_file : String
  source_url : String
  provider_id : String
  pinned : Option Bool
deriving DecidableEq, Repr

/-- Mod dataclass from mod.py.  Named ModSummary here (the Lean core
library already declares Mod); the spec uses the same name. -/
structure ModSummary where
  id : String
  name : String
  author : String
  website : String
  description : String
  categories : List String
deriving DecidableEq, Repr

/-- DetailedMod dataclass from mod.py, extending Mod. -/
structure DetailedMod extends ModSummary where
  issues_url : Option String
  source_url : Option String
  downloads : Nat
  versions : List ModVersion
deriving DecidableEq, Repr

/-- Config object from config.py: the manifest file path, target game
version and loader, and the ordered mapping of installed mods. -/
structure Config where
  file : String
  version : String
  loader : String
  mods : List (String × InstalledMod)
deriving DecidableEq, Repr

/-- The manifest together with the set of paths existing on disk. -/
structure Sys where
  config : Config
  fs : List String
deriving DecidableEq, Repr

/-- Python dict assignment d[k] = v on an insertion-ordered dict:
replace in place when the key exists, append otherwise. -/
def dictSet (m : List (String × InstalledMod)) (k : String) (v : InstalledMod) :
    List (String × InstalledMod) :=
  if m.any (fun p => p.1 == k) then
    m.map (fun p => if p.1 == k then (k, v) else p)
  else
    m ++ [(k, v)]

/-- Python del d[k]: drop every pair stored under the key. -/
def dictDel (m : List (String × InstalledMod)) (k : String) :
    List (String × InstalledMod) :=
  m.filter (fun p => p.1 != k)

/-- Writing a file: the path exists afterwards, listed once. -/
def addFile (fs : List String) (path : String) : List String :=
  if fs.contains path then fs else fs ++ [path]

/-- os.remove wrapped in suppress(FileNotFoundError): erase the path if
present, leave the file system unchanged otherwise. -/
def removeFile (fs : List String) (path : String) : List String :=
  fs.filter (fun p => p != path)

/-- ModVersion.matches from mod.py line 35: the target game version is
among the game versions and the target loader among the loaders. -/
def ModVersion.matches (v : ModVersion) (config : Config) : Bool :=
  v.game_versions.contains config.version && v.loaders.contains config.loader

/-- Stable insertion into a list sorted by date descending: the inserted
element goes before the first element whose date is not greater, which
keeps elements of equal date in original order (Python sorted is stable). -/
def insertByDateDesc (v : ModVersion) : List ModVersion → List ModVersion
  | [] => [v]
  | w :: ws => if w.date ≤ v.date then v :: w :: ws else w :: insertByDateDesc v ws

/-- Stable sort by date descending, embedding sorted(key=date, reverse=True)
from mod.py line 104. -/
def sortByDateDesc : List ModVersion → List ModVersion
  | [] => []
  | v :: vs => insertByDateDesc v (sortByDateDesc vs)

/-- DetailedMod.sorted_versions from mod.py lines 102-104. -/
def DetailedMod.sorted_versions (m : DetailedMod) : List ModVersion :=
  sortByDateDesc m.versions

/-- DetailedMod.matching_versions from mod.py lines 106-107: filter the
date-sorted versions by the platform match. -/
def DetailedMod.matching_versions (m : DetailedMod) (config : Config) : List ModVersion :=
  m.sorted_versions.filter (fun v => v.matches config)

/-- InstalledMod.from_version from mod.py lines 52-64.  The dataclass has
no pinned field, so the constructed object carries no pinned attribute. -/
def InstalledMod.from_version (modname : String) (version : ModVersion)
    (provider : String) : InstalledMod :=
  { id := version.modid
    name := modname
    version_id := version.id
    installed_file := version.filename
    installed_version := version.version
    source_url := version.url
    provider_id := provider
    pinned := none }

/-- Config.add_mod from config.py lines 63-64. -/
def Config.add_mod (c : Config) (m : InstalledMod) : Config :=
  { c with mods := dictSet c.mods m.id m }

/-- Config.is_mod_installed from config.py lines 73-74. -/
def Config.is_mod_installed (c : Config) (modid : String) : Bool :=
  c.mods.any (fun p => p.1 == modid)

/-- Python dict lookup config.mods[modid], as an Option. -/
def Config.find_mod (c : Config) (modid : String) : Option InstalledMod :=
  (c.mods.find? (fun p => p.1 == modid)).map Prod.snd

/-- Config.is_file_known from config.py lines 76-77. -/
def Config.is_file_known (c : Config) (file : String) : Bool :=
  c.mods.any (fun p => p.2.installed_file == file)

/-- Config.remove_mod from config.py lines 66-71, including its file
system effect: assert the id is present (AssertionError otherwise),
os.remove the installed file under suppress(FileNotFoundError), then
delete the manifest entry. -/
def Sys.remove_mod (s : Sys) (modid : String) : Sys × Except PyError Unit :=
  match s.config.find_mod modid with
  | none => (s, .error .assertionError)
  | some m =>
      ({ config := { s.config with mods := dictDel s.config.mods modid }
         fs := removeFile s.fs m.installed_file }, .ok ())

/-- The registry capability a provider offers: its id, the info and
detailed_info endpoints, and whether the network transfer of a given
version succeeds. -/
structure Registry where
  provider_id : String
  info : String → Except PyError ModSummary
  detailed_info : String → Except PyError DetailedMod
  download_ok : ModVersion → Bool

/-- download from modrinth.py lines 118-124 / curse.py lines 32-38: on
success the artifact is written at version.filename and the returned
InstalledMod is built by from_version; on failure nothing changes. -/
def Registry.download (r : Registry) (s : Sys) (mod : ModSummary) (version : ModVersion) :
    Sys × Except PyError InstalledMod :=
  if r.download_ok version then
    ({ s with fs := addFile s.fs version.filename },
      .ok (InstalledMod.from_version mod.name version r.provider_id))
  else
    (s, .error .clientResponseError)

/-- ModProvider.add from provider.py lines 17-39. -/
def Registry.add (r : Registry) (s : Sys) (modid : String) :
    Sys × Except PyError InstalledMod :=
  match r.detailed_info modid with
  | .error e => (s, .error e)
  | .ok info =>
      if s.config.is_mod_installed info.id then (s, .error .alreadyInstalled)
      else
        match info.matching_versions s.config with
        | [] => (s, .error .noCompatibleVersion)
        | v :: _ =>
            match r.download s info.toModSummary v with
            | (s1, .error _) => (s1, .error .downloadFailed)
            | (s1, .ok installed_mod) =>
                ({ s1 with config := s1.config.add_mod installed_mod },
                  .ok installed_mod)

/-- ModProvider.find_upgrade from provider.py lines 41-54. -/
def Registry.find_upgrade (r : Registry) (config : Config) (mod : InstalledMod) :
    Except PyError (Option ModVersion) :=
  match r.detailed_info mod.id with
  | .error e => .error e
  | .ok info =>
      match info.matching_versions config with
      | [] => .error .noCompatibleVersion
      | v :: _ => if v.id == mod.version_id then .ok none else .ok (some v)

/-- ModProvider.upgrade from provider.py lines 56-85.  Reading
installed_mod.pinned raises AttributeError when the attribute is absent
(the dataclass declares no such field).  On an accepted upgrade the code
calls config.remove_mod (which also unlinks the old file) and then
config.add_mod with the freshly downloaded mod. -/
def Registry.upgrade (r : Registry) (s : Sys) (modid : String) :
    Sys × Except PyError (Option InstalledMod) :=
  match r.info modid with
  | .error e => (s, .error e)
  | .ok info =>
      if ¬ s.config.is_mod_installed info.id then (s, .error .notInstalled)
      else
        match s.config.find_mod info.id with
        | none => (s, .error .keyError)
        | some installed_mod =>
            match installed_mod.pinned with
            | none => (s, .error .attributeError)
            | some true => (s, .ok none)
            | some false =>
                match r.find_upgrade s.config installed_mod with
                | .error e => (s, .error e)
                | .ok none => (s, .ok none)
                | .ok (some upgrade_version) =>
                    match r.download s info upgrade_version with
                    | (s1, .error _) => (s1, .error .downloadFailed)
                    | (s1, .ok mod) =>
                        match s1.remove_mod installed_mod.id with
                        | (s2, .error e) => (s2, .error e)
                        | (s2, .ok _) =>
                            ({ s2 with config := s2.config.add_mod mod },
                              .ok (some mod))

/-- The per-id body of the remove command, main.py lines 254-266: fetch
info, and when the mod is installed call Config.remove_mod, otherwise
report a not-installed error for this id. -/
def main_remove_one (r : Registry) (s : Sys) (modid : String) :
    Sys × Except PyError Unit :=
  match r.info modid with
  | .error e => (s, .error e)
  | .ok info =>
      if s.config.is_mod_installed info.id then s.remove_mod info.id
      else (s, .error .notInstalled)

/-- The add command loop, main.py lines 231-239: every id is awaited
inside its own try/except, so each item yields one outcome (the installed
mod, or the caught error) and a failure never stops the loop.  The
cooperative scheduler serializes the manifest mutations; this embedding
fixes the completion order to the input order. -/
def add_batch (r : Registry) :
    Sys → List String → Sys × List (Except PyError InstalledMod)
  | s, [] => (s, [])
  | s, modid :: rest =>
      let step := r.add s modid
      let next := add_batch r step.1 rest
      (next.1, step.2 :: next.2)

/-- The upgrade command loop, main.py lines 274-291, with the same
per-item try/except structure as the add loop. -/
def upgrade_batch (r : Registry) :
    Sys → List String → Sys × List (Except PyError (Option InstalledMod))
  | s, [] => (s, [])
  | s, modid :: rest =>
      let step := r.upgrade s modid
      let next := upgrade_batch r step.1 rest
      (next.1, step.2 :: next.2)

/-- Modelled from the spec: the module modweaver/murmur2.py imported by
curse.py is not present in the sources, only its caller is.  The spec
describes it as the classic murmur2 variant of a non-cryptographic
word-based rolling hash with an explicit seed; this is the classic
32-bit murmur2 mixing step on a 32-bit word. -/
def murmur2Mix (k : Nat) : Nat :=
  let m := 0x5bd1e995
  let k1 := (k * m) % 2 ^ 32
  let k2 := k1 ^^^ (k1 >>> 24)
  (k2 * m) % 2 ^ 32

/-- Modelled from the spec: the body loop of classic 32-bit murmur2,
consuming the byte list word by word (little endian) and folding each
mixed word into the running hash, then folding in the trailing bytes. -/
def murmur2Loop (h : Nat) : List Nat → Nat
  | b0 :: b1 :: b2 :: b3 :: rest =>
      let k := b0 + b1 * 2 ^ 8 + b2 * 2 ^ 16 + b3 * 2 ^ 24
      murmur2Loop (((h * 0x5bd1e995) % 2 ^ 32) ^^^ murmur2Mix k) rest
  | [b0, b1, b2] =>
      ((((h ^^^ (b2 <<< 16) ^^^ (b1 <<< 8) ^^^ b0) * 0x5bd1e995) % 2 ^ 32))
  | [b0, b1] =>
      ((((h ^^^ (b1 <<< 8) ^^^ b0) * 0x5bd1e995) % 2 ^ 32))
  | [b0] =>
      (((h ^^^ b0) * 0x5bd1e995) % 2 ^ 32)
  | [] => h

/-- Modelled from the spec: classic 32-bit murmur2 of a byte sequence
with the given seed, with the final avalanche steps. -/
def murmur2 (data : List Nat) (seed : Nat) : Nat :=
  let h0 := (seed ^^^ data.length) % 2 ^ 32
  let h1 := murmur2Loop h0 data
  let h2 := h1 ^^^ (h1 >>> 13)
  let h3 := (h2 * 0x5bd1e995) % 2 ^ 32
  h3 ^^^ (h3 >>> 15)

/-- The byte filter of CurseForgeAPI.file_hash, curse.py line 113: keep
every byte that is not tab, newline, carriage return or space. -/
def stripWhitespace (data : List Nat) : List Nat :=
  data.filter (fun b => ¬ (b = 9 ∨ b = 10 ∨ b = 13 ∨ b = 32))

/-- CurseForgeAPI.file_hash, curse.py lines 110-114, applied to the bytes
read from the file: strip the whitespace bytes, then hash with seed 1. -/
def CurseForgeAPI.file_hash (data : List Nat) : Nat :=
  murmur2 (stripWhitespace data) 1

/-- CurseForgeAPI.guess_name, curse.py lines 116-117: split on the first
dash, then on the first underscore, keeping the leading token. -/
def CurseForgeAPI.guess_name (file : String) : String :=
  (((file.splitOn "-").headD "").splitOn "_").headD ""

/-- One entry of the exactMatches list returned by the CurseForge
fingerprint endpoint, with the fields curse.py lines 127-144 read. -/
structure CurseMatch where
  id : String
  file_id : String
  file_displayName : String
  file_downloadUrl : String
deriving DecidableEq, Repr

/-- The remote endpoints CurseForgeAPI.discover consumes, plus the file
contents read from disk by file_hash. -/
structure CurseEnv where
  fingerprint_matches : Nat → Except PyError (List CurseMatch)
  info : String → Except PyError ModSummary
  file_bytes : String → List Nat

/-- CurseForgeAPI.discover, curse.py lines 119-150: fingerprint the local
file, query the fingerprint endpoint, take the first exact match, resolve
its mod name through info under suppress(KeyError) with the guessed name
as fallback, and insert an InstalledMod whose installed_file is the local
path argument. -/
def CurseForgeAPI.discover (env : CurseEnv) (c : Config) (file : String) :
    Config × Except PyError InstalledMod :=
  let fingerprint := CurseForgeAPI.file_hash (env.file_bytes file)
  match env.fingerprint_matches fingerprint with
  | .error _ => (c, .error .unidentifiableFile)
  | .ok [] => (c, .error .unidentifiableFile)
  | .ok (m :: _) =>
      let info : Option ModSummary :=
        match env.info m.id with
        | .ok i => some i
        | .error _ => none
      let installed_mod : InstalledMod :=
        { id := m.id
          name :=
            match info with
            | some i => i.name
            | none => CurseForgeAPI.guess_name m.file_displayName
          version_id := m.file_id
          installed_version := m.file_displayName
          installed_file := file
          source_url := m.file_downloadUrl
          provider_id := "curseforge"
          pinned := none }
      ((c.add_mod installed_mod), .ok installed_mod)

/-- The remote endpoints ModrinthAPI.discover consumes: the version_file
lookup by hash (already parsed to a ModVersion), the info endpoint, and
the sha1 digest of the file at a local path. -/
structure ModrinthEnv where
  version_for_hash : String → Except PyError ModVersion
  info : String → Except PyError ModSummary
  sha1 : String → String

/-- ModrinthAPI.discover, modrinth.py lines 135-153: hash the local file,
look the version up by hash, fetch the mod info, and insert the
InstalledMod built by from_version, whose installed_file is therefore the
remote filename of the version, not the local path argument. -/
def ModrinthAPI.discover (env : ModrinthEnv) (c : Config) (file : String) :
    Config × Except PyError InstalledMod :=
  match env.version_for_hash (env.sha1 file) with
  | .error _ => (c, .error .unidentifiableFile)
  | .ok version =>
      match env.info version.modid with
      | .error e => (c, .error e)
      | .ok info =>
          let installed_mod := InstalledMod.from_version info.name version "modrinth"
          ((c.add_mod installed_mod), .ok installed_mod)

/-- Inserting into the date-sorted list is a permutation of consing. -/
theorem insertByDateDesc_perm (v : ModVersion) (l : List ModVersion) :
    (insertByDateDesc v l).Perm (v :: l) := by
  induction l with
  | nil => exact List.Perm.refl _
  | cons w ws ih =>
      by_cases h : w.date ≤ v.date
      · simp [insertByDateDesc, h]
      · simp only [insertByDateDesc, h, if_false]
        exact (ih.cons w).trans (List.Perm.swap v w ws)

/-- The stable date sort permutes its input. -/
theorem sortByDateDesc_perm (l : List ModVersion) :
    (sortByDateDesc l).Perm l := by
  induction l with
  | nil => exact List.Perm.refl _
  | cons v vs ih =>
      exact (insertByDateDesc_perm v (sortByDateDesc vs)).trans (ih.cons v)

/-- Membership in the insertion result. -/
theorem mem_insertByDateDesc {x v : ModVersion} {l : List ModVersion} :
    x ∈ insertByDateDesc v l ↔ x = v ∨ x ∈ l := by
  rw [(insertByDateDesc_perm v l).mem_iff]
  simp

/-- Insertion preserves the sorted-descending-by-date invariant. -/
theorem insertByDateDesc_pairwise {v : ModVersion} {l : List ModVersion}
    (h : l.Pairwise (fun a b => b.date ≤ a.date)) :
    (insertByDateDesc v l).Pairwise (fun a b => b.date ≤ a.date) := by
  induction l with
  | nil => simp [insertByDateDesc]
  | cons w ws ih =>
      rcases List.pairwise_cons.mp h with ⟨hw, hws⟩
      by_cases hle : w.date ≤ v.date
      · simp only [insertByDateDesc, hle, if_true]
        refine List.pairwise_cons.mpr ⟨?_, h⟩
        intro x hx
        rcases List.mem_cons.mp hx with hx | hx
        · exact hx ▸ hle
        · exact le_trans (hw x hx) hle
      · simp only [insertByDateDesc, hle, if_false]
        refine List.pairwise_cons.mpr ⟨?_, ih hws⟩
        intro x hx
        rcases mem_insertByDateDesc.mp hx with hx | hx
        · subst hx
          exact le_of_lt (lt_of_not_le hle)
        · exact hw x hx

/-- The stable date sort is sorted descending by date. -/
theorem sortByDateDesc_pairwise (l : List ModVersion) :
    (sortByDateDesc l).Pairwise (fun a b => b.date ≤ a.date) := by
  induction l with
  | nil => simp [sortByDateDesc]
  | cons v vs ih => exact insertByDateDesc_pairwise ih

/-- Filtering by a predicate confined to a single date commutes with
insertion: the predicate can only hold at date d, every element the
insertion skips has a strictly larger date, so the insertion point is in
front of every selected element. -/
theorem filter_insertByDateDesc (p : ModVersion → Bool) (d : Nat)
    (hp : ∀ w, p w = true → w.date = d) (v : ModVersion) (l : List ModVersion) :
    (insertByDateDesc v l).filter p =
      if p v then v :: l.filter p else l.filter p := by
  induction l with
  | nil => simp [insertByDateDesc, List.filter_cons]
  | cons w ws ih =>
      by_cases hle : w.date ≤ v.date
      · simp [insertByDateDesc, hle, List.filter_cons]
      · simp only [insertByDateDesc, hle, if_false, List.filter_cons]
        by_cases hpv : p v = true
        · have hpw : ¬ p w = true := by
            intro hpw
            have hvd := hp v hpv
            have hwd := hp w hpw
            exact hle (le_of_eq (hwd.trans hvd.symm))
          simp [hpv, hpw, ih]
        · simp only [Bool.not_eq_true] at hpv
          simp [hpv, ih]

/-- Filtering by a single-date predicate ignores the stable date sort:
the selected elements come out in their original relative order. -/
theorem filter_sortByDateDesc (p : ModVersion → Bool) (d : Nat)
    (hp : ∀ w, p w = true → w.date = d) (l : List ModVersion) :
    (sortByDateDesc l).filter p = l.filter p := by
  induction l with
  | nil => rfl
  | cons v vs ih =>
      rw [sortByDateDesc, filter_insertByDateDesc p d hp, List.filter_cons, ih]

/-- A completed lookup determines membership of the key. -/
theorem Config.find_mod_is_mod_installed {c : Config} {k : String} {m : InstalledMod}
    (h : c.find_mod k = some m) : c.is_mod_installed k = true := by
  unfold Config.find_mod at h
  cases hf : c.mods.find? (fun p => p.1 == k) with
  | none => rw [hf] at h; exact absurd h (by simp)
  | some pr =>
      have hkey := List.find?_some hf
      exact List.any_eq_true.mpr ⟨pr, List.mem_of_find?_eq_some hf, hkey⟩

/-- Key well-formedness of a manifest: every entry is stored under the id
of the mod it holds, which Config.add_mod and Config.load_from guarantee. -/
def Config.wf (c : Config) : Bool :=
  c.mods.all (fun p => p.2.id == p.1)

/-- In a well-formed manifest the looked-up mod carries the key as id. -/
theorem Config.find_mod_wf_id {c : Config} {k : String} {m : InstalledMod}
    (hwf : c.wf = true) (h : c.find_mod k = some m) : m.id = k := by
  unfold Config.find_mod at h
  cases hf : c.mods.find? (fun p => p.1 == k) with
  | none => rw [hf] at h; exact absurd h (by simp)
  | some pr =>
      rw [hf] at h
      simp only [Option.map_some', Option.some.injEq] at h
      have hmem := List.mem_of_find?_eq_some hf
      have hkey := List.find?_some hf
      have hid : (pr.2.id == pr.1) = true :=
        List.all_eq_true.mp hwf pr hmem
      rw [← h]
      exact (beq_iff_eq.mp hid).trans (beq_iff_eq.mp hkey)

/-- Deleting a key that only occurs as the freshly appended last entry
restores the original association list. -/
theorem dictDel_append_fresh {l : List (String × InstalledMod)} {k : String}
    (hfresh : l.any (fun p => p.1 == k) = false) (v : InstalledMod) :
    dictDel (l ++ [(k, v)]) k = l := by
  unfold dictDel
  rw [List.filter_append]
  have h1 : l.filter (fun p => p.1 != k) = l := by
    refine List.filter_eq_self.mpr ?_
    intro p hp
    have := List.any_eq_false.mp hfresh p hp
    simpa using this
  have h2 : ([((k : String), v)].filter (fun p => p.1 != k)) = [] := by simp
  rw [h1, h2, List.append_nil]

/-- Looking a fresh key up after appending its entry finds that entry. -/
theorem find_mod_append_fresh {l : List (String × InstalledMod)} {k : String}
    (hfresh : l.any (fun p => p.1 == k) = false) (v : InstalledMod)
    (c : Config) (hc : c.mods = l ++ [(k, v)]) : c.find_mod k = some v := by
  unfold Config.find_mod
  rw [hc, List.find?_append]
  have h1 : l.find? (fun p => p.1 == k) = none := by
    refine List.find?_eq_none.mpr ?_
    intro p hp
    simpa using List.any_eq_false.mp hfresh p hp
  rw [h1]
  simp

/-- Removing a path that is absent from the disk leaves the disk as is. -/
theorem removeFile_of_not_mem {fs : List String} {path : String}
    (h : path ∉ fs) : removeFile fs path = fs := by
  refine List.filter_eq_self.mpr ?_
  intro p hp
  exact bne_iff_ne.mpr (fun he => h (he ▸ hp))

/-- A removed path is gone from the disk. -/
theorem not_mem_removeFile (fs : List String) (path : String) :
    path ∉ removeFile fs path := by
  intro h
  rcases List.mem_filter.mp h with ⟨-, hpred⟩
  exact absurd rfl (bne_iff_ne.mp hpred)

theorem Registry.add_error_state (r : Registry) (s : Sys) (modid : String) (e : PyError) :
    (r.add s modid).2 = .error e → (r.add s modid).1 = s := by
  unfold Registry.add Registry.download
  repeat' split
  all_goals intro h
  all_goals first
    | rfl
    | (rename_i s1 a heq; split at heq <;> simp_all)

theorem add_batch_length (r : Registry) : ∀ (s : Sys) (ids : List String),
    (add_batch r s ids).2.length = ids.length := by
  intro s ids
  induction ids generalizing s with
  | nil => rfl
  | cons b rest ih => simp [add_batch, ih]

theorem upgrade_batch_length (r : Registry) : ∀ (s : Sys) (ids : List String),
    (upgrade_batch r s ids).2.length = ids.length := by
  intro s ids
  induction ids generalizing s with
  | nil => rfl
  | cons b rest ih => simp [upgrade_batch, ih]

theorem Sys.remove_mod_of_find (s : Sys) (k : String) (m : InstalledMod)
    (h : s.config.find_mod k = some m) :
    s.remove_mod k =
      ({ config := { s.config with mods := dictDel s.config.mods k }
         fs := removeFile s.fs m.installed_file }, .ok ()) := by
  unfold Sys.remove_mod
  rw [h]

theorem Registry.upgrade_error_state (r : Registry) (s : Sys) (modid : String) (e : PyError)
    (hwf : s.config.wf = true) :
    (r.upgrade s modid).2 = .error e → (r.upgrade s modid).1 = s := by
  unfold Registry.upgrade
  cases hi : r.info modid with
  | error e2 => intro h; rfl
  | ok info =>
      simp only [hi]
      by_cases hinst : s.config.is_mod_installed info.id = true
      · rw [if_neg (by simp [hinst])]
        cases hfind : s.config.find_mod info.id with
        | none => intro h; rfl
        | some installed =>
            simp only [hfind]
            cases hpin : installed.pinned with
            | none => intro h; rfl
            | some b =>
                cases b with
                | true => intro h; simp at h
                | false =>
                    simp only [hpin]
                    cases hfu : r.find_upgrade s.config installed with
                    | error e2 => intro h; rfl
                    | ok ov =>
                        cases ov with
                        | none => intro h; simp at h
                        | some uv =>
                            unfold Registry.download
                            cases hdl : r.download_ok uv with
                            | false =>
                                simp only [hdl, Bool.false_eq_true, if_false]
                                intro h; trivial
                            | true =>
                                simp only [hdl, if_true]
                                have hid : installed.id = info.id :=
                                  Config.find_mod_wf_id hwf hfind
                                rw [hid,
                                  Sys.remove_mod_of_find
                                    ⟨s.config, addFile s.fs uv.filename⟩
                                    info.id installed hfind]
                                intro h
                                simp at h
      · rw [if_pos (by simp [hinst])]
        intro h; rfl

/-- On a fresh key the dict assignment is an append. -/
theorem dictSet_fresh {l : List (String × InstalledMod)} {k : String}
    (hfresh : l.any (fun p => p.1 == k) = false) (v : InstalledMod) :
    dictSet l k v = l ++ [(k, v)] := by
  unfold dictSet
  rw [if_neg (by simp [hfresh])]

/-- After deleting a key no entry is stored under it. -/
theorem any_key_dictDel (l : List (String × InstalledMod)) (k : String) :
    (dictDel l k).any (fun p => p.1 == k) = false := by
  refine List.any_eq_false.mpr ?_
  intro p hp
  rcases List.mem_filter.mp hp with ⟨-, hpred⟩
  simp only [bne_iff_ne] at hpred
  simp [hpred]

/-- Replacing a present key in place keeps it findable with the new value. -/
theorem find?_map_replace (k : String) (v : InstalledMod) :
    ∀ (l : List (String × InstalledMod)), l.any (fun p => p.1 == k) = true →
      (l.map (fun p => if p.1 == k then (k, v) else p)).find?
        (fun p => p.1 == k) = some (k, v)
  | [], h => by simp at h
  | p :: ps, h => by
      by_cases hp : (p.1 == k) = true
      · rw [List.map_cons, if_pos hp]
        exact List.find?_cons_of_pos _ (by simp)
      · rw [List.map_cons, if_neg hp]
        rw [List.find?_cons_of_neg _ (by simpa using hp)]
        refine find?_map_replace k v ps ?_
        rcases List.any_eq_true.mp h with ⟨x, hx, hxp⟩
        rcases List.mem_cons.mp hx with hx | hx
        · exact absurd (hx ▸ hxp) hp
        · exact List.any_eq_true.mpr ⟨x, hx, hxp⟩

/-- Looking up the assigned key right after a dict assignment finds the
assigned value, whether the key was fresh or replaced in place. -/
theorem find?_dictSet (l : List (String × InstalledMod)) (k : String) (v : InstalledMod) :
    (dictSet l k v).find? (fun p => p.1 == k) = some (k, v) := by
  unfold dictSet
  cases hb : l.any (fun p => p.1 == k) with
  | true =>
      rw [if_pos rfl]
      exact find?_map_replace k v l hb
  | false =>
      rw [if_neg (by simp)]
      have h1 : l.find? (fun p => p.1 == k) = none :=
        List.find?_eq_none.mpr (fun p hp => List.any_eq_false.mp hb p hp)
      rw [List.find?_append, h1]
      simp

/-- Looking up a mod right after Config.add_mod yields that mod. -/
theorem Config.find_mod_add_mod (c : Config) (m : InstalledMod) :
    (c.add_mod m).find_mod m.id = some m := by
  unfold Config.add_mod Config.find_mod
  rw [find?_dictSet]
  rfl

/-- Writing a fresh file and then unlinking it restores the disk. -/
theorem removeFile_addFile_of_not_mem {fs : List String} {path : String}
    (h : path ∉ fs) : removeFile (addFile fs path) path = fs := by
  unfold addFile
  by_cases hc : fs.contains path = true
  · exact absurd (List.elem_iff.mp hc) h
  · rw [if_neg hc]
    unfold removeFile
    have hself : fs.filter (fun p => p != path) = fs :=
      List.filter_eq_self.mpr (fun q hq => bne_iff_ne.mpr (fun he => h (he ▸ hq)))
    rw [List.filter_append, hself]
    simp

/-- A fabric 1.20.1 version of mod m1, published at time 1. -/
def vA : ModVersion :=
  ⟨"vA", "m1", "1.0", "m1-1.0.jar", "urlA", 1, ["fabric"], ["1.20.1"]⟩

/-- A newer fabric 1.20.1 version of mod m1, published at time 2. -/
def vB : ModVersion :=
  ⟨"vB", "m1", "2.0", "m1-2.0.jar", "urlB", 2, ["fabric"], ["1.20.1"]⟩

/-- Registry summary record for mod m1. -/
def sum1 : ModSummary := ⟨"m1", "Mod One", "au", "web", "desc", []⟩

/-- Detailed registry record for mod m1, versions listed oldest first. -/
def det1 : DetailedMod :=
  { toModSummary := sum1, issues_url := none, source_url := none,
    downloads := 0, versions := [vA, vB] }

/-- An empty manifest targeting fabric 1.20.1. -/
def cfg0 : Config := ⟨".mods.toml", "1.20.1", "fabric", []⟩

/-- Mod m1 installed at version vA, as the code constructs it. -/
def imA : InstalledMod := InstalledMod.from_version "Mod One" vA "modrinth"

/-- The same installed mod with the dynamic pinned attribute set False. -/
def imApin : InstalledMod := { imA with pinned := some false }

/-- The same installed mod with the dynamic pinned attribute set True. -/
def imAtrue : InstalledMod := { imA with pinned := some true }

/-- Mod m1 installed at version vB. -/
def imB : InstalledMod := InstalledMod.from_version "Mod One" vB "modrinth"

/-- Manifest with m1 installed at vA. -/
def cfgA : Config := { cfg0 with mods := [("m1", imA)] }

/-- Manifest with m1 installed at vA, pinned attribute present and False. -/
def cfgApin : Config := { cfg0 with mods := [("m1", imApin)] }

/-- Manifest with m1 installed at vA, pinned attribute present and True. -/
def cfgAtrue : Config := { cfg0 with mods := [("m1", imAtrue)] }

/-- A registry that knows m1 and whose downloads succeed. -/
def reg1 : Registry :=
  ⟨"modrinth", fun _ => .ok sum1, fun _ => .ok det1, fun _ => true⟩

/-- A registry that knows m1 but whose downloads fail. -/
def regD : Registry :=
  ⟨"modrinth", fun _ => .ok sum1, fun _ => .ok det1, fun _ => false⟩

/-- A registry that knows nothing. -/
def regNF : Registry :=
  ⟨"modrinth", fun _ => .error .notFound, fun _ => .error .notFound, fun _ => true⟩

/-- State: m1 installed at vA, its file on disk. -/
def sA : Sys := ⟨cfgA, ["m1-1.0.jar"]⟩

/-- State: m1 installed at vA with pinned attribute False, file on disk. -/
def sApin : Sys := ⟨cfgApin, ["m1-1.0.jar"]⟩

/-- State: m1 installed at vA with pinned attribute True, file on disk. -/
def sAtrue : Sys := ⟨cfgAtrue, ["m1-1.0.jar"]⟩

/-- C1: the spec says an InstalledMod carries a pinned flag and that
upgrade on a pinned mod returns None leaving the entry untouched.  The
dataclass in mod.py declares no pinned field and no repository code path
ever sets the attribute, so reading installed_mod.pinned in
provider.py line 64 raises AttributeError for every installed mod: the
pin feature cannot work as specified.  Were the attribute present and
True, the code would indeed return None and leave the state untouched. -/
theorem c1_upgrade_reads_missing_pinned_attribute :
    (reg1.upgrade sA "m1").2 = .error .attributeError
    ∧ (reg1.upgrade sA "m1").1 = sA
    ∧ (∀ modname version provider,
        (InstalledMod.from_version modname version provider).pinned = none)
    ∧ reg1.upgrade sAtrue "m1" = (sAtrue, .ok none) := by
  exact ⟨rfl, rfl, fun _ _ _ => rfl, rfl⟩

/-- C2 counterexample: with m1 installed at vA (pinned attribute present
and False so the upgrade path is reachable), its file on disk, and vB
available, upgrade succeeds and replaces the entry, but the old physical
file m1-1.0.jar is deleted from disk: upgrade does delete the old file,
through Config.remove_mod. -/
theorem c2_counterexample_upgrade_deletes_old_file :
    (reg1.upgrade sApin "m1").2 = .ok (some imB)
    ∧ "m1-1.0.jar" ∈ sApin.fs
    ∧ "m1-1.0.jar" ∉ (reg1.upgrade sApin "m1").1.fs := by
  refine ⟨rfl, by decide, by decide⟩

/-- C2 amended: for an installed mod whose pinned attribute is present
and False (the only way the unpinned path is reachable, the dataclass
declaring no such field), with an upgrade available and downloadable,
upgrade replaces the manifest entry with the new InstalledMod AND
unlinks the old physical file from disk, because it performs the
replacement with Config.remove_mod (which deletes the file) followed by
Config.add_mod. -/
theorem c2_upgrade_replaces_entry_and_unlinks_old_file
    (r : Registry) (s : Sys) (modid : String) (info : ModSummary)
    (installed : InstalledMod) (v : ModVersion)
    (hi : r.info modid = .ok info)
    (hfind : s.config.find_mod info.id = some installed)
    (hpin : installed.pinned = some false)
    (hid : installed.id = info.id)
    (hvm : v.modid = info.id)
    (hfu : r.find_upgrade s.config installed = .ok (some v))
    (hdl : r.download_ok v = true) :
    (r.upgrade s modid).2 =
      .ok (some (InstalledMod.from_version info.name v r.provider_id))
    ∧ (r.upgrade s modid).1.config.find_mod info.id =
      some (InstalledMod.from_version info.name v r.provider_id)
    ∧ installed.installed_file ∉ (r.upgrade s modid).1.fs := by
  have hinst := Config.find_mod_is_mod_installed hfind
  unfold Registry.upgrade
  simp only [hi]
  rw [if_neg (by simp [hinst])]
  simp only [hfind, hpin, hfu]
  unfold Registry.download
  simp only [hdl, if_true]
  rw [hid,
    Sys.remove_mod_of_find ⟨s.config, addFile s.fs v.filename⟩ info.id installed hfind]
  refine ⟨rfl, ?_, ?_⟩
  · rw [← hvm]
    exact Config.find_mod_add_mod _ _
  · exact not_mem_removeFile _ _

/-- C2 witness: the amended statement applied to the concrete pinned
False state used in the counterexample. -/
theorem c2_witness :
    (reg1.upgrade sApin "m1").2 = .ok (some imB)
    ∧ (reg1.upgrade sApin "m1").1.config.find_mod "m1" = some imB
    ∧ "m1-1.0.jar" ∉ (reg1.upgrade sApin "m1").1.fs := by
  have h := c2_upgrade_replaces_entry_and_unlinks_old_file
    reg1 sApin "m1" sum1 imApin vB rfl rfl rfl rfl rfl rfl rfl
  exact ⟨h.1, h.2.1, h.2.2⟩

/-- C3 counterexample: det1 lists its versions oldest first, both
matching the platform, so matching_versions returns them newest first
and is not a subsequence of the version list in its original order:
matching_versions is a sort, not a stable filter of m.versions. -/
theorem c3_counterexample_not_a_sublist_of_versions :
    det1.matching_versions cfg0 = [vB, vA]
    ∧ det1.versions = [vA, vB]
    ∧ ¬ (det1.matching_versions cfg0).Sublist det1.versions := by
  refine ⟨by decide, rfl, ?_⟩
  intro h
  exact absurd (h.eq_of_length (by decide)) (by decide)

/-- C3 amended: matching_versions(m, p) is a subsequence of
sorted_versions(m), the stable descending-by-date sort of m.versions
(not of m.versions itself); it contains exactly the versions matching
the platform; it is sorted by date descending; and the sort is stable:
for each fixed timestamp the selected versions appear in their original
relative order. -/
theorem c3_matching_versions_stable_sorted_filter (m : DetailedMod) (config : Config) :
    (m.matching_versions config).Sublist m.sorted_versions
    ∧ (m.matching_versions config).Perm
        (m.versions.filter (fun v => v.matches config))
    ∧ (∀ v, v ∈ m.matching_versions config ↔
        (v ∈ m.versions ∧ v.matches config = true))
    ∧ (m.matching_versions config).Pairwise (fun a b => b.date ≤ a.date)
    ∧ (∀ d, (m.matching_versions config).filter (fun v => v.date == d) =
        m.versions.filter (fun v => (v.date == d) && v.matches config)) := by
  have hperm : (m.matching_versions config).Perm
      (m.versions.filter (fun v => v.matches config)) :=
    (sortByDateDesc_perm m.versions).filter _
  refine ⟨List.filter_sublist _, hperm, ?_, ?_, ?_⟩
  · intro v
    rw [hperm.mem_iff, List.mem_filter]
  · exact List.Pairwise.sublist (List.filter_sublist _) (sortByDateDesc_pairwise _)
  · intro d
    unfold DetailedMod.matching_versions DetailedMod.sorted_versions
    rw [List.filter_filter]
    exact filter_sortByDateDesc _ d
      (fun w hw => by
        have h1 : (w.date == d) = true := (Bool.and_eq_true _ _).mp hw |>.1
        exact beq_iff_eq.mp h1)
      m.versions

/-- C4: once the detailed info of the installed mod is fetched,
find_upgrade fails with NoCompatibleVersion exactly when the matching
version list is empty; otherwise it returns None precisely when the best
(first) matching version has the installed version id, and returns that
best version in every other case. -/
theorem c4_find_upgrade_spec (r : Registry) (config : Config) (mod : InstalledMod)
    (info : DetailedMod) (h : r.detailed_info mod.id = .ok info) :
    (info.matching_versions config = [] →
      r.find_upgrade config mod = .error .noCompatibleVersion)
    ∧ (∀ v vs, info.matching_versions config = v :: vs →
        ((r.find_upgrade config mod = .ok none ↔ v.id = mod.version_id)
         ∧ (v.id ≠ mod.version_id → r.find_upgrade config mod = .ok (some v)))) := by
  constructor
  · intro hm
    unfold Registry.find_upgrade
    simp only [h, hm]
  · intro v vs hm
    unfold Registry.find_upgrade
    simp only [h, hm]
    constructor
    · by_cases hv : v.id = mod.version_id
      · simp [hv]
      · simp [hv]
    · intro hv
      simp [hv]

/-- C4 witness: against reg1, the mod installed at vA upgrades to vB and
the mod installed at vB is reported current. -/
theorem c4_witness :
    reg1.find_upgrade cfg0 imA = .ok (some vB)
    ∧ reg1.find_upgrade cfg0 imB = .ok none := by
  constructor
  · exact ((c4_find_upgrade_spec reg1 cfg0 imA det1 rfl).2 vB [vA] rfl).2 (by decide)
  · exact ((c4_find_upgrade_spec reg1 cfg0 imB det1 rfl).2 vB [vA] rfl).1.mpr rfl

/-- C5: when add reaches the download of the best matching version and
that download fails, add fails with DownloadFailed and the manifest is
unchanged: the InstalledMod entry is only inserted after a successful
download. -/
theorem c5_add_download_failed (r : Registry) (s : Sys) (modid : String)
    (info : DetailedMod) (v : ModVersion) (vs : List ModVersion)
    (h1 : r.detailed_info modid = .ok info)
    (h2 : s.config.is_mod_installed info.id = false)
    (h3 : info.matching_versions s.config = v :: vs)
    (h4 : r.download_ok v = false) :
    (r.add s modid).2 = .error .downloadFailed
    ∧ (r.add s modid).1.config = s.config := by
  unfold Registry.add Registry.download
  simp only [h1, h2, h3, h4, Bool.false_eq_true, if_false]
  exact ⟨by trivial, by trivial⟩

/-- C5 witness: against the registry whose downloads fail, adding m1 to
the empty manifest fails with DownloadFailed and leaves it empty. -/
theorem c5_witness :
    (regD.add ⟨cfg0, []⟩ "m1").2 = .error .downloadFailed
    ∧ (regD.add ⟨cfg0, []⟩ "m1").1.config = cfg0 :=
  c5_add_download_failed regD ⟨cfg0, []⟩ "m1" det1 vB [vA] rfl rfl rfl rfl

/-- C6: removing an installed mod whose backing file is absent from disk
succeeds without raising: the missing file is tolerated (os.remove runs
under suppress(FileNotFoundError)), the disk is untouched, and the
manifest entry is removed unconditionally. -/
theorem c6_remove_missing_file_tolerated (r : Registry) (s : Sys) (modid : String)
    (info : ModSummary) (m : InstalledMod)
    (h0 : r.info modid = .ok info)
    (h1 : s.config.find_mod info.id = some m)
    (h2 : m.installed_file ∉ s.fs) :
    (main_remove_one r s modid).2 = .ok ()
    ∧ (main_remove_one r s modid).1.fs = s.fs
    ∧ (main_remove_one r s modid).1.config.mods = dictDel s.config.mods info.id
    ∧ (main_remove_one r s modid).1.config.is_mod_installed info.id = false := by
  have hinst := Config.find_mod_is_mod_installed h1
  unfold main_remove_one
  simp only [h0, hinst, if_true]
  rw [Sys.remove_mod_of_find s info.id m h1]
  exact ⟨rfl, removeFile_of_not_mem h2, rfl, any_key_dictDel s.config.mods info.id⟩

/-- C6 witness: removing m1 when m1-1.0.jar is not on disk succeeds and
drops the entry. -/
theorem c6_witness :
    (main_remove_one reg1 ⟨cfgA, []⟩ "m1").2 = .ok ()
    ∧ (main_remove_one reg1 ⟨cfgA, []⟩ "m1").1.fs = []
    ∧ (main_remove_one reg1 ⟨cfgA, []⟩ "m1").1.config.mods = dictDel cfgA.mods "m1"
    ∧ (main_remove_one reg1 ⟨cfgA, []⟩ "m1").1.config.is_mod_installed "m1" = false :=
  c6_remove_missing_file_tolerated reg1 ⟨cfgA, []⟩ "m1" sum1 imA rfl rfl (by decide)

/-- C7: the CurseForge fingerprint first removes every occurrence of the
bytes tab (9), newline (10), carriage return (13) and space (32) - and
nothing else, keeping the surviving bytes in order - and only then
applies murmur2 with seed 1 to the stripped sequence; on the sample
input the bytes of A B, tab, C, newline, D strip to the bytes of ABCD
before hashing. -/
theorem c7_file_hash_strips_then_hashes (data : List Nat) :
    CurseForgeAPI.file_hash data = murmur2 (stripWhitespace data) 1
    ∧ (stripWhitespace data).Sublist data
    ∧ (∀ b, (stripWhitespace data).count b =
        if b = 9 ∨ b = 10 ∨ b = 13 ∨ b = 32 then 0 else data.count b)
    ∧ stripWhitespace [65, 32, 66, 9, 67, 10, 68] = [65, 66, 67, 68]
    ∧ CurseForgeAPI.file_hash [65, 32, 66, 9, 67, 10, 68] =
        murmur2 [65, 66, 67, 68] 1 := by
  refine ⟨rfl, List.filter_sublist _, ?_, rfl, rfl⟩
  intro b
  by_cases hb : b = 9 ∨ b = 10 ∨ b = 13 ∨ b = 32
  · rw [if_pos hb]
    refine List.count_eq_zero.mpr ?_
    intro hmem
    rcases List.mem_filter.mp hmem with ⟨-, hpred⟩
    rw [decide_eq_true_eq] at hpred
    exact hpred hb
  · rw [if_neg hb]
    exact List.count_filter (decide_eq_true hb)

/-- C8: a successful add of a mod whose id is not yet in the manifest,
followed immediately by remove of that id, restores the manifest map
exactly, leaves the downloaded file absent, and when the file was not on
disk beforehand restores the whole state. -/
theorem c8_add_remove_roundtrip (r : Registry) (s : Sys) (modid : String)
    (s1 : Sys) (im : InstalledMod)
    (hadd : r.add s modid = (s1, .ok im))
    (hfresh : s.config.is_mod_installed im.id = false)
    (hid : im.id = modid) :
    (s1.remove_mod modid).2 = .ok ()
    ∧ (s1.remove_mod modid).1.config = s.config
    ∧ im.installed_file ∉ (s1.remove_mod modid).1.fs
    ∧ (im.installed_file ∉ s.fs → (s1.remove_mod modid).1 = s) := by
  unfold Registry.add Registry.download at hadd
  cases hdi : r.detailed_info modid with
  | error e =>
      rw [hdi] at hadd
      exact absurd hadd (by simp)
  | ok info =>
      rw [hdi] at hadd
      cases hinst : s.config.is_mod_installed info.id with
      | true =>
          simp only [hinst, if_true] at hadd
          exact absurd hadd (by simp)
      | false =>
          simp only [hinst, Bool.false_eq_true, if_false] at hadd
          cases hmv : info.matching_versions s.config with
          | nil =>
              rw [hmv] at hadd
              exact absurd hadd (by simp)
          | cons v vs =>
              rw [hmv] at hadd
              cases hdl : r.download_ok v with
              | false =>
                  simp only [hdl, Bool.false_eq_true, if_false] at hadd
                  exact absurd hadd (by simp)
              | true =>
                  simp only [hdl, if_true] at hadd
                  rw [Prod.mk.injEq] at hadd
                  obtain ⟨hs1, him⟩ := hadd
                  rw [Except.ok.injEq] at him
                  subst him
                  subst hs1
                  rw [hid] at hfresh
                  have hset : dictSet s.config.mods
                      (InstalledMod.from_version info.name v r.provider_id).id
                      (InstalledMod.from_version info.name v r.provider_id) =
                      s.config.mods ++
                        [(modid, InstalledMod.from_version info.name v r.provider_id)] := by
                    rw [show (InstalledMod.from_version info.name v r.provider_id).id
                          = modid from hid]
                    exact dictSet_fresh hfresh _
                  have hfind : (Config.add_mod s.config
                      (InstalledMod.from_version info.name v r.provider_id)).find_mod modid =
                      some (InstalledMod.from_version info.name v r.provider_id) := by
                    unfold Config.add_mod Config.find_mod
                    rw [hset, List.find?_append,
                      List.find?_eq_none.mpr
                        (fun p hp => List.any_eq_false.mp hfresh p hp)]
                    simp
                  rw [Sys.remove_mod_of_find _ modid _ hfind]
                  have hmods : dictDel (Config.add_mod s.config
                      (InstalledMod.from_version info.name v r.provider_id)).mods modid =
                      s.config.mods := by
                    show dictDel (dictSet s.config.mods _ _) modid = s.config.mods
                    rw [hset]
                    exact dictDel_append_fresh hfresh _
                  refine ⟨rfl, ?_, not_mem_removeFile _ _, ?_⟩
                  · show Config.mk s.config.file s.config.version s.config.loader
                        (dictDel (Config.add_mod s.config
                          (InstalledMod.from_version info.name v r.provider_id)).mods
                          modid) = s.config
                    rw [hmods]
                  · intro hnm
                    have hfs : removeFile
                        (addFile s.fs v.filename)
                        (InstalledMod.from_version info.name v r.provider_id).installed_file
                        = s.fs := removeFile_addFile_of_not_mem hnm
                    show Sys.mk (Config.mk s.config.file s.config.version s.config.loader
                        (dictDel (Config.add_mod s.config
                          (InstalledMod.from_version info.name v r.provider_id)).mods
                          modid))
                        (removeFile (addFile s.fs v.filename)
                          (InstalledMod.from_version info.name v r.provider_id).installed_file)
                        = s
                    rw [hfs, hmods]

/-- The state reg1.add produces from the empty manifest: m1 installed at
vB with its artifact written. -/
def s1W : Sys := ⟨⟨".mods.toml", "1.20.1", "fabric", [("m1", imB)]⟩, ["m1-2.0.jar"]⟩

/-- C8 witness: adding m1 to the empty manifest and removing it restores
the empty manifest and the empty disk. -/
theorem c8_witness :
    (s1W.remove_mod "m1").2 = .ok ()
    ∧ (s1W.remove_mod "m1").1.config = cfg0
    ∧ imB.installed_file ∉ (s1W.remove_mod "m1").1.fs
    ∧ (s1W.remove_mod "m1").1 = ⟨cfg0, []⟩ := by
  have h := c8_add_remove_roundtrip reg1 ⟨cfg0, []⟩ "m1" s1W imB rfl rfl rfl
  exact ⟨h.1, h.2.1, h.2.2.1, h.2.2.2 (by decide)⟩

/-- C9: in the add and upgrade batch loops each item is awaited in its
own try/except: a failing head item contributes exactly its own error
outcome and, because every failing add or upgrade leaves the state
unchanged, the remaining items produce exactly the outcomes they would
produce without the failing item; every batch reports one outcome per
input item. -/
theorem c9_batch_isolation (r : Registry) (s : Sys) (b b2 : String)
    (e e2 : PyError) (rest ids : List String)
    (hwf : s.config.wf = true)
    (h1 : (r.add s b).2 = .error e)
    (h2 : (r.upgrade s b2).2 = .error e2) :
    add_batch r s (b :: rest) =
      ((add_batch r s rest).1, .error e :: (add_batch r s rest).2)
    ∧ upgrade_batch r s (b2 :: rest) =
      ((upgrade_batch r s rest).1, .error e2 :: (upgrade_batch r s rest).2)
    ∧ (add_batch r s ids).2.length = ids.length
    ∧ (upgrade_batch r s ids).2.length = ids.length := by
  have ha := Registry.add_error_state r s b e h1
  have hu := Registry.upgrade_error_state r s b2 e2 hwf h2
  refine ⟨?_, ?_, add_batch_length r s ids, upgrade_batch_length r s ids⟩
  · show (let step := r.add s b
          let next := add_batch r step.1 rest
          (next.1, step.2 :: next.2)) = _
    simp only [ha, h1]
  · show (let step := r.upgrade s b2
          let next := upgrade_batch r step.1 rest
          (next.1, step.2 :: next.2)) = _
    simp only [hu, h2]

/-- C9 witness: against the empty registry both batch loops record the
per-item NotFound error for the failing head and still process the tail,
reporting one outcome per input. -/
theorem c9_witness :
    add_batch regNF sA ["x", "m1"] =
      ((add_batch regNF sA ["m1"]).1, .error .notFound :: (add_batch regNF sA ["m1"]).2)
    ∧ upgrade_batch regNF sA ["x", "m1"] =
      ((upgrade_batch regNF sA ["m1"]).1,
        .error .notFound :: (upgrade_batch regNF sA ["m1"]).2)
    ∧ (add_batch regNF sA ["x", "m1"]).2.length = 2
    ∧ (upgrade_batch regNF sA ["x", "m1"]).2.length = 2 :=
  c9_batch_isolation regNF sA "x" "x" .notFound .notFound ["m1"] ["x", "m1"]
    rfl rfl rfl

/-- C10: a successful Modrinth discover inserts the InstalledMod built
by from_version from the remote version, so its installed_file is the
remote filename, not the local path argument (when the two differ the
mod is tracked under a path other than the scanned file); a successful
CurseForge discover records the local path argument itself. -/
theorem c10_discover_recorded_paths (env : ModrinthEnv) (c : Config) (file : String)
    (version : ModVersion) (info : ModSummary)
    (cenv : CurseEnv) (c2 : Config) (file2 : String)
    (m : CurseMatch) (rest : List CurseMatch)
    (h1 : env.version_for_hash (env.sha1 file) = .ok version)
    (h2 : env.info version.modid = .ok info)
    (h3 : cenv.fingerprint_matches
        (CurseForgeAPI.file_hash (cenv.file_bytes file2)) = .ok (m :: rest)) :
    (ModrinthAPI.discover env c file).2 =
      .ok (InstalledMod.from_version info.name version "modrinth")
    ∧ ((ModrinthAPI.discover env c file).2.map (fun im => im.installed_file)) =
      .ok version.filename
    ∧ (version.filename ≠ file →
        ((ModrinthAPI.discover env c file).2.map (fun im => im.installed_file)) ≠
          .ok file)
    ∧ ((CurseForgeAPI.discover cenv c2 file2).2.map (fun im => im.installed_file)) =
      .ok file2 := by
  unfold ModrinthAPI.discover CurseForgeAPI.discover
  simp only [h1, h2, h3]
  refine ⟨by trivial, by trivial, ?_, by trivial⟩
  intro hne heq
  simp only [Except.map, InstalledMod.from_version, Except.ok.injEq] at heq
  exact hne heq

/-- A Modrinth environment resolving any hash to vB. -/
def menvW : ModrinthEnv := ⟨fun _ => .ok vB, fun _ => .ok sum1, fun _ => "sha1sum"⟩

/-- A CurseForge exact match record. -/
def cmW : CurseMatch := ⟨"77", "f9", "CoolMod 2.0", "urlQ"⟩

/-- A CurseForge environment returning that single exact match. -/
def cenvW : CurseEnv := ⟨fun _ => .ok [cmW], fun _ => .ok sum1, fun _ => [65, 32]⟩

/-- C10 witness: discovering local.jar via Modrinth records m1-2.0.jar,
not local.jar; discovering it via CurseForge records local.jar. -/
theorem c10_witness :
    (ModrinthAPI.discover menvW cfg0 "local.jar").2 = .ok imB
    ∧ ((ModrinthAPI.discover menvW cfg0 "local.jar").2.map
        (fun im => im.installed_file)) = .ok "m1-2.0.jar"
    ∧ ((ModrinthAPI.discover menvW cfg0 "local.jar").2.map
        (fun im => im.installed_file)) ≠ .ok "local.jar"
    ∧ ((CurseForgeAPI.discover cenvW cfg0 "local.jar").2.map
        (fun im => im.installed_file)) = .ok "local.jar" := by
  have h := c10_discover_recorded_paths menvW cfg0 "local.jar" vB sum1
    cenvW cfg0 "local.jar" cmW [] rfl rfl rfl
  exact ⟨h.1, h.2.1, h.2.2.1 (by decide), h.2.2.2⟩
